import Mathlib

/-
Shallow embedding of the format-dispatch and lazy-sequence-access layer of
the pims repository (src/pims/api.py and src/pims/viewer.py), together with
theorems settling the frozen claims about it.

Python exceptions are modelled by an error type `PimsError`; fallible code
returns `Except PimsError _`.  Pixel payloads are modelled as 2D lists of
naturals, dtypes as numeric tags.  External collaborators (the imageio
reader object returned by `get_reader`) are modelled by the minimal
contract the source code relies on: a list of decodable frames, a
sequential data stream (`iter_data`), and a closed flag whose `close` is
idempotent and whose data accessors fail once closed.
-/

namespace PimsSpec

/-- Errors of the embedded layer.  `importError` models Python's
`ImportError` raised by `not_available` (the role the spec calls
`BackendUnavailable`); `indexOutOfRange` models `IndexError`;
`closedSequence` models the error an access on a closed reader raises. -/
inductive PimsError where
  | importError (msg : String)
  | indexOutOfRange
  | closedSequence
  deriving DecidableEq, Repr

/-- Result of dispatch in `open` (src/pims/api.py, lines 203-210): either an
`ImageSequence` collection reader built from the path expression, or the
registry-based single-file reader `ImageIOReader` built from it. -/
inductive Opened where
  | imageSequence (expr : String)
  | imageIOReader (expr : String)
  deriving DecidableEq, Repr

/-- True exactly on the registry-based single-file dispatch branch. -/
def Opened.isBackendDispatch : Opened → Bool
  | .imageIOReader _ => true
  | .imageSequence _ => false

/-- Embedding of `open` (src/pims/api.py, lines 171-210).  The filesystem
effect `glob.glob(sequence)` is passed in as `globResult`, the list of
matching files.  The source is
`files = glob.glob(sequence); if len(files) > 1: return ImageSequence(sequence);
return ImageIOReader(sequence)` — note there is no error branch. -/
def pimsOpen (sequence : String) (globResult : List String) : Opened :=
  if globResult.length > 1 then .imageSequence sequence
  else .imageIOReader sequence

/-- Descriptor part of `PimsFormat` (src/pims/api.py, lines 31-43): the
declared name, extensions and modes of a registered format.  Following
imageio's `Format.__init__`, `extensions` holds the lower-case dotted
extensions and `modes` the declared mode characters. -/
structure PimsFormat where
  name : String
  extensions : List String
  modes : List Char
  deriving DecidableEq, Repr

/-- Embedding of `PimsFormat._can_read` (src/pims/api.py, lines 37-40):
`if request.mode[1] in (self.modes + chr63): if
request.filename.lower().endswith(self.extensions): return True`.
`mode2` is `request.mode[1]`, the requested capability-mode character. -/
def PimsFormat.can_read (f : PimsFormat) (filename : String) (mode2 : Char) : Bool :=
  if mode2 ∈ f.modes ++ ['?'] then
    if f.extensions.any (fun e => (filename.toLower).endsWith e) then true
    else false
  else false

/-- Embedding of `PimsFormat._can_write` (src/pims/api.py, lines 42-43). -/
def PimsFormat.can_write (_f : PimsFormat) (_filename : String) (_mode2 : Char) : Bool :=
  false

/-- The eligibility predicate exactly as the spec words it: the filename's
extension (case-insensitively) is in the descriptor's extension set AND the
requested mode is in the descriptor's mode set OR the requested mode is the
wildcard.  Written from the spec for comparison with `can_read`. -/
def eligibleSpec (f : PimsFormat) (filename : String) (mode2 : Char) : Bool :=
  (f.extensions.any (fun e => (filename.toLower).endsWith e)) &&
    (decide (mode2 ∈ f.modes) || decide (mode2 = '?'))

theorem can_read_eq_eligibleSpec (f : PimsFormat) (filename : String) (mode2 : Char) :
    f.can_read filename mode2 = eligibleSpec f filename mode2 := by
  unfold PimsFormat.can_read eligibleSpec
  have hiff : (mode2 ∈ f.modes ++ ['?']) ↔
      ((decide (mode2 ∈ f.modes) || decide (mode2 = '?')) = true) := by
    simp [List.mem_append]
  by_cases hm : mode2 ∈ f.modes ++ ['?']
  · rw [if_pos hm, hiff.mp hm, Bool.and_true]
    cases he : f.extensions.any (fun e => (filename.toLower).endsWith e)
    · rw [if_neg (by simp [he])]
    · rw [if_pos (by simp [he])]
  · rw [if_neg hm]
    have hfalse : (decide (mode2 ∈ f.modes) || decide (mode2 = '?')) = false := by
      rw [← Bool.not_eq_true, ← hiff]; exact hm
    rw [hfalse, Bool.and_false]

/-- Embedding of `not_available` (src/pims/api.py, lines 24-28): returns a
constructor (`raiser`) that, for any argument list, raises
`ImportError("This reader requires <requirement>.")` instead of building a
reader.  The result type is polymorphic because the raiser never returns. -/
def not_available (requirement : String) : {α : Type} → List String → Except PimsError α :=
  fun _args => .error (.importError ("This reader requires " ++ requirement ++ "."))

/-- The name `TiffStack` is bound to (src/pims/api.py, lines 129-138):
either one of the concrete tiff readers, by availability priority, or the
always-failing constructor `not_available` with the dependency names. -/
inductive TiffBinding where
  | tifffile
  | libtiff
  | pil
  | unavailable (dep : String)
  deriving DecidableEq, Repr

/-- Embedding of the `TiffStack` alias selection (src/pims/api.py,
lines 131-138), as a function of the three availability probes evaluated at
process start. -/
def tiffStackBinding (tifffileAvail libtiffAvail pilAvail : Bool) : TiffBinding :=
  if tifffileAvail then .tifffile
  else if libtiffAvail then .libtiff
  else if pilAvail then .pil
  else .unavailable "tifffile, libtiff, or PIL/Pillow"

/-- One decodable frame held by the external imageio reader: pixel payload,
dtype tag and the per-frame metadata exposed as `frame.meta`. -/
structure BFrame where
  data : List (List Nat)
  dtype : Nat
  meta : List (String × Nat)
  deriving DecidableEq, Repr

/-- Model of the external imageio reader object returned by `get_reader`:
the frames it can decode and its global metadata.  Its sequential
`iter_data()` stream yields `frames` in order. -/
structure Backend where
  frames : List BFrame
  globalMeta : List (String × Nat)
  deriving DecidableEq, Repr

/-- Model of the imageio reader's `get_data(index)`: decodes frame `index`,
failing on an out-of-range index. -/
def Backend.get_data (b : Backend) (i : Nat) : Except PimsError BFrame :=
  match b.frames[i]? with
  | some f => .ok f
  | none => .error .indexOutOfRange

/-- Embedding of `pims.frame.Frame` as constructed by `ImageIOReader`:
`Frame(frame, frame_no=i, metadata=frame.meta)` keeps the payload and dtype
of the decoded array and records the frame number and metadata. -/
structure Frame where
  data : List (List Nat)
  dtype : Nat
  frame_no : Nat
  meta : List (String × Nat)
  deriving DecidableEq, Repr

/-- Shape of a 2D payload, as numpy's `.shape` reports it. -/
def shapeOf (p : List (List Nat)) : List Nat :=
  [p.length, (p.headD []).length]

/-- State of `ImageIOReader` (src/pims/api.py, lines 213-252): the backend
reader, the filename, and the cached `_len`, `_shape`, `_dtype`.  The
`closed` flag models the external backend reader's closed state, which
`ImageIOReader.close` delegates to. -/
structure ImageIOReader where
  backend : Backend
  filename : String
  len : Nat
  shape : List Nat
  dtype : Nat
  closed : Bool
  deriving DecidableEq, Repr

/-- The body of `get_frame` (src/pims/api.py, lines 223-225) before an
`ImageIOReader` record exists, used both by `__init__` and by `get_frame`:
`frame = self.reader.get_data(i); return Frame(frame, frame_no=i,
metadata=frame.meta)`.  The closed check belongs to the external backend:
`get_data` on a closed imageio reader fails. -/
def rawGetFrame (b : Backend) (closed : Bool) (i : Nat) : Except PimsError Frame :=
  if closed then .error .closedSequence
  else (b.get_data i).map fun f => ⟨f.data, f.dtype, i, f.meta⟩

/-- Embedding of `ImageIOReader.__init__` (src/pims/api.py, lines 214-221):
stores the backend and filename, caches `_len = reader.get_length()`, then
probes `first_frame = self.get_frame(0)` and caches `_shape` and `_dtype`.
The second component is the log of frame indices decoded during
construction, one entry per `get_data` call issued. -/
def ImageIOReader.init (filename : String) (b : Backend) :
    Except PimsError (ImageIOReader × List Nat) :=
  match rawGetFrame b false 0 with
  | .error e => .error e
  | .ok first =>
      .ok (⟨b, filename, b.frames.length, shapeOf first.data, first.dtype, false⟩, [0])

/-- Embedding of `ImageIOReader.get_frame` (src/pims/api.py, lines 223-225). -/
def ImageIOReader.get_frame (r : ImageIOReader) (i : Nat) : Except PimsError Frame :=
  rawGetFrame r.backend r.closed i

/-- Embedding of the `frame_shape` property (src/pims/api.py, lines 243-245):
returns the cached `_shape`, issuing no backend call. -/
def ImageIOReader.frame_shape (r : ImageIOReader) : List Nat :=
  r.shape

/-- Embedding of the `pixel_type` property (src/pims/api.py, lines 247-249):
returns the cached `_dtype`, issuing no backend call. -/
def ImageIOReader.pixel_type (r : ImageIOReader) : Nat :=
  r.dtype

/-- Modelled from the spec: index normalization of the sequence facade's
`get` lives in `FramesSequence.__getitem__` (pims/base_frames.py with
slicerator, not under src/).  Per the spec, an integer index in
`[-length, length)` is accepted, a negative index counts from the end
Python-style, and anything outside that interval fails with
`IndexOutOfRange`; the normalized non-negative index is then passed to
`get_frame`. -/
def ImageIOReader.get (r : ImageIOReader) (i : Int) : Except PimsError Frame :=
  if -(r.len : Int) ≤ i ∧ i < (r.len : Int) then
    r.get_frame (if i < 0 then (i + (r.len : Int)).toNat else i.toNat)
  else .error .indexOutOfRange

/-- Modelled from the spec: `get_range` (fancy indexing via slicerator, not
under src/) takes an ordered collection of indices and produces the frames
one at a time, each element obtained exactly as `get` obtains it; the first
failure aborts the stream. -/
def ImageIOReader.get_range (r : ImageIOReader) : List Int → Except PimsError (List Frame)
  | [] => .ok []
  | i :: rest => do
      let f ← r.get i
      let fs ← r.get_range rest
      pure (f :: fs)

/-- Embedding of `ImageIOReader.__iter__` (src/pims/api.py, lines 233-237):
`iterable = self.reader.iter_data(); for i in range(len(self)): frame =
next(iterable); yield Frame(frame, frame_no=i, metadata=frame.meta)`.  The
external `iter_data()` stream is the backend's frame list in order; zipping
with `range(len(self))` takes the first `len` stream elements.  Iterating a
closed backend fails. -/
def ImageIOReader.iterFrames (r : ImageIOReader) : Except PimsError (List Frame) :=
  if r.closed then .error .closedSequence
  else .ok (((List.range r.len).zip r.backend.frames).map
    fun p => ⟨p.2.data, p.2.dtype, p.1, p.2.meta⟩)

/-- Embedding of `ImageIOReader.close` (src/pims/api.py, lines 251-252):
delegates to the backend reader's `close()`, which marks it closed and is
idempotent (closing an already-closed backend is a no-op). -/
def ImageIOReader.close (r : ImageIOReader) : ImageIOReader :=
  { r with closed := true }

/-- Embedding of `Viewer.update_image` (src/pims/viewer.py, lines 225-229):
`image = self.original_image.copy(); for func in self.pipelines: image =
func(image); self.image = image` — the registered transforms are applied in
registration order, earliest first, to the raw image. -/
def update_image {α : Type} (pipelines : List (α → α)) (original : α) : α :=
  pipelines.foldl (fun img f => f img) original

/-- The lazy sequence `pipeline(func)(seq)` used by `Viewer.show`
(src/pims/viewer.py, line 258): slicerator's pipeline wrapper, whose
element at index `i` is `func` applied to the upstream element at `i`. -/
def pipelineApply {α : Type} (f : α → α) (s : Nat → α) : Nat → α :=
  fun i => f (s i)

/-- The outermost sequence built by the loop in `Viewer.show`
(src/pims/viewer.py, lines 255-260): `result[0] = self.reader;
result[i + 1] = pipeline(func)(result[i])`, so the final entry wraps the
root reader with every registered transform, earliest registered innermost. -/
def composedSeq {α : Type} (pipelines : List (α → α)) (root : Nat → α) : Nat → α :=
  pipelines.foldl (fun s f => pipelineApply f s) root

theorem composedSeq_eq_update_image {α : Type} (pipelines : List (α → α))
    (root : Nat → α) (i : Nat) :
    composedSeq pipelines root i = update_image pipelines (root i) := by
  induction pipelines generalizing root with
  | nil => rfl
  | cons f fs ih =>
      simp only [composedSeq, update_image, List.foldl_cons] at *
      exact ih (pipelineApply f root)

/-- State of the `Viewer` (src/pims/viewer.py) relevant to index updates:
the displayed index, the slider value, the raw and pipelined images, the
reader (a sequence of decodable images) and the registered pipelines. -/
structure ViewerState (α : Type) where
  index : Nat
  sliderVal : Nat
  original_image : α
  image : α
  reader : List α
  pipelines : List (α → α)

/-- The first line of `Viewer.update_index` (src/pims/viewer.py, line 215):
`index = min(max(int(round(index)), 0), len(self.reader) - 1)`.  For an
integer input `int(round(index))` is the input itself. -/
def clampIndex (i : Int) (n : Nat) : Int :=
  min (max i 0) ((n : Int) - 1)

/-- Embedding of `Viewer.update_index` (src/pims/viewer.py, lines 213-223):
`index = min(max(int(round(index)), 0), len(self.reader) - 1); if index ==
self.index: return; self.index = index; self.slider.val = index; image =
self.reader[self.index]; self.original_image = image; self.update_image()`.
The second component logs the indices read from the reader; an
out-of-range read would fail as Python indexing does. -/
def Viewer.update_index {α : Type} (st : ViewerState α) (i : Int) :
    Except PimsError (ViewerState α × List Nat) :=
  if clampIndex i st.reader.length = (st.index : Int) then .ok (st, [])
  else
    match st.reader[(clampIndex i st.reader.length).toNat]? with
    | some img =>
        .ok ({ st with
                index := (clampIndex i st.reader.length).toNat
                sliderVal := (clampIndex i st.reader.length).toNat
                original_image := img
                image := update_image st.pipelines img },
          [(clampIndex i st.reader.length).toNat])
    | none => .error .indexOutOfRange

/-- C1: if glob expansion of the path expression yields strictly more than
one file, `open` returns the ordered-image-collection reader
(`ImageSequence`) built from the expression; otherwise (one match or a
literal path) it delegates to registry-based single-file dispatch
(`ImageIOReader`), never synthesizing a collection for a single match. -/
theorem C1_open_dispatch (s : String) (files : List String) :
    (1 < files.length → pimsOpen s files = Opened.imageSequence s) ∧
    (files.length ≤ 1 → pimsOpen s files = Opened.imageIOReader s) := by
  constructor
  · intro h
    simp [pimsOpen, h]
  · intro h
    simp [pimsOpen, Nat.not_lt.mpr h]

theorem C1_open_dispatch_witness :
    pimsOpen "*.png" ["a.png", "b.png"] = Opened.imageSequence "*.png" ∧
    pimsOpen "a.png" ["a.png"] = Opened.imageIOReader "a.png" :=
  ⟨(C1_open_dispatch "*.png" ["a.png", "b.png"]).1 (by decide),
   (C1_open_dispatch "a.png" ["a.png"]).2 (by decide)⟩

/-- C2 counterexample: with zero glob matches (and hence a path expression
naming no existing file), `open` does not fail with any `NoMatchingFiles`
error — the source has no such branch — but falls through to the
registry-based backend dispatch, returning an `ImageIOReader`
construction. -/
theorem C2_counterexample :
    pimsOpen "missing.xyz" [] = Opened.imageIOReader "missing.xyz" ∧
    (pimsOpen "missing.xyz" []).isBackendDispatch = true :=
  ⟨rfl, rfl⟩

/-- C2 (amended): when the glob expansion matches zero files, `open` does
not raise `NoMatchingFiles`; it falls through to registry-based single-file
dispatch (`ImageIOReader`), so any missing-file failure surfaces from the
backend instead. -/
theorem C2_zero_matches_falls_through (s : String) (files : List String)
    (h : files.length = 0) :
    pimsOpen s files = Opened.imageIOReader s ∧
    (pimsOpen s files).isBackendDispatch = true := by
  have hle : files.length ≤ 1 := by omega
  refine ⟨(C1_open_dispatch s files).2 hle, ?_⟩
  rw [(C1_open_dispatch s files).2 hle]
  rfl

theorem C2_zero_matches_falls_through_witness :
    pimsOpen "nothere.png" [] = Opened.imageIOReader "nothere.png" ∧
    (pimsOpen "nothere.png" []).isBackendDispatch = true :=
  C2_zero_matches_falls_through "nothere.png" [] (by decide)

/-- C3: a registered format entry is judged capable of reading a request
exactly when the lower-cased filename carries one of the entry's declared
extensions as suffix AND the requested mode character is in the declared
mode set or is the wildcard; it is never capable of writing. -/
theorem C3_capability_match (f : PimsFormat) (filename : String) (mode2 : Char) :
    (f.can_read filename mode2 = true ↔
      (∃ e ∈ f.extensions, (filename.toLower).endsWith e) ∧
        (mode2 ∈ f.modes ∨ mode2 = '?')) ∧
    f.can_read filename mode2 = eligibleSpec f filename mode2 ∧
    f.can_write filename mode2 = false := by
  refine ⟨?_, can_read_eq_eligibleSpec f filename mode2, rfl⟩
  rw [can_read_eq_eligibleSpec]
  simp [eligibleSpec, List.any_eq_true]

/-- C4: the constructor bound for a backend whose decoding library is
missing is `not_available dep`: whatever arguments it is applied to, it
fails with the import error naming the missing dependency and never
returns a reader; in particular, with none of tifffile/libtiff/PIL
available, `TiffStack` is bound to the failing constructor carrying
"tifffile, libtiff, or PIL/Pillow". -/
theorem C4_unavailable_backend (α : Type) (req : String) (args : List String) :
    (∃ msg, (not_available req args : Except PimsError α) =
        Except.error (PimsError.importError msg) ∧
      ∃ pre post, msg = pre ++ req ++ post) ∧
    (∀ r : α, (not_available req args : Except PimsError α) ≠ Except.ok r) ∧
    tiffStackBinding false false false =
      TiffBinding.unavailable "tifffile, libtiff, or PIL/Pillow" := by
  refine ⟨⟨"This reader requires " ++ req ++ ".", rfl,
    "This reader requires ", ".", rfl⟩, ?_, rfl⟩
  intro r h
  exact Except.noConfusion h

/-- A concrete backend with one 2x2 frame, for evaluating the theorems. -/
def bEx : Backend :=
  ⟨[⟨[[1, 2], [3, 4]], 7, [("fps", 30)]⟩], [("fps", 30)]⟩

/-- A backend with no decodable frames. -/
def bEmpty : Backend := ⟨[], []⟩

/-- The reader that `ImageIOReader.init "a.png" bEx` constructs. -/
def rEx : ImageIOReader := ⟨bEx, "a.png", 1, [2, 2], 7, false⟩

theorem get_frame_ok_frame_no (r : ImageIOReader) (j : Nat) (f : Frame)
    (h : r.get_frame j = Except.ok f) : f.frame_no = j := by
  unfold ImageIOReader.get_frame rawGetFrame Backend.get_data at h
  cases hc : r.closed with
  | true => rw [hc] at h; exact Except.noConfusion (if_pos rfl ▸ h)
  | false =>
      rw [hc, if_neg (by simp)] at h
      cases hbf : r.backend.frames[j]? with
      | none => rw [hbf] at h; exact Except.noConfusion h
      | some bf =>
          rw [hbf] at h
          cases h
          rfl

theorem get_frame_isOk (r : ImageIOReader) (j : Nat) (hc : r.closed = false)
    (hj : j < r.backend.frames.length) :
    ∃ f, r.get_frame j = Except.ok f ∧ f.frame_no = j := by
  have hbf : r.backend.frames[j]? = some (r.backend.frames[j]) :=
    List.getElem?_eq_getElem hj
  refine ⟨⟨(r.backend.frames[j]).data, (r.backend.frames[j]).dtype, j,
    (r.backend.frames[j]).meta⟩, ?_, rfl⟩
  unfold ImageIOReader.get_frame rawGetFrame Backend.get_data
  rw [hc, if_neg (by simp), hbf]
  rfl

/-- C5: constructing the sequence facade decodes frame 0 exactly once — a
backend failure on frame 0 propagates out of the constructor — and the
constructed reader's `frame_shape` and `pixel_type` equal the shape and
dtype of the frame `get_frame 0` returns, served from the cached `_shape`
and `_dtype` fields without re-decoding. -/
theorem C5_probe_once (fn : String) (b : Backend) :
    (∀ e, b.get_data 0 = Except.error e → ImageIOReader.init fn b = Except.error e) ∧
    (∀ r log, ImageIOReader.init fn b = Except.ok (r, log) →
      log = [0] ∧
      ∃ f, r.get_frame 0 = Except.ok f ∧
        r.frame_shape = shapeOf f.data ∧ r.pixel_type = f.dtype ∧
        r.frame_shape = r.shape ∧ r.pixel_type = r.dtype) := by
  cases hgd : b.get_data 0 with
  | error e =>
      have hinit : ImageIOReader.init fn b = Except.error e := by
        unfold ImageIOReader.init rawGetFrame
        rw [if_neg (by simp), hgd]
        rfl
      constructor
      · intro e' he'
        cases he'
        exact hinit
      · intro r log hok
        rw [hinit] at hok
        exact Except.noConfusion hok
  | ok bf =>
      have hinit : ImageIOReader.init fn b =
          Except.ok (⟨b, fn, b.frames.length, shapeOf bf.data, bf.dtype, false⟩, [0]) := by
        unfold ImageIOReader.init rawGetFrame
        rw [if_neg (by simp), hgd]
        rfl
      constructor
      · intro e' he'
        exact Except.noConfusion he'
      · intro r log hok
        rw [hinit] at hok
        cases hok
        refine ⟨rfl, ⟨bf.data, bf.dtype, 0, bf.meta⟩, ?_, rfl, rfl, rfl, rfl⟩
        unfold ImageIOReader.get_frame rawGetFrame
        rw [if_neg (by simp), hgd]
        rfl

theorem C5_probe_once_witness :
    ImageIOReader.init "a.png" bEmpty = Except.error PimsError.indexOutOfRange ∧
    ([0] = ([0] : List Nat) ∧
      ∃ f, rEx.get_frame 0 = Except.ok f ∧
        rEx.frame_shape = shapeOf f.data ∧ rEx.pixel_type = f.dtype ∧
        rEx.frame_shape = rEx.shape ∧ rEx.pixel_type = rEx.dtype) :=
  ⟨(C5_probe_once "a.png" bEmpty).1 PimsError.indexOutOfRange rfl,
   (C5_probe_once "a.png" bEx).2 rEx [0] rfl⟩

/-- C6: for an open reader whose cached length matches the backend, `get`
succeeds on every integer index in `[-length, length)`; `get (-1)` is the
very same call as `get (length - 1)` after Python-style wraparound, and the
frame it returns carries `frame_no = length - 1`; every index outside
`[-length, length)` fails with `IndexOutOfRange`. -/
theorem C6_index_wraparound (r : ImageIOReader)
    (hwf : r.len = r.backend.frames.length) (hc : r.closed = false) :
    (∀ i : Int, -(r.len : Int) ≤ i → i < (r.len : Int) → ∃ f, r.get i = Except.ok f) ∧
    (0 < r.len →
      r.get (-1) = r.get ((r.len : Int) - 1) ∧
      ∀ f, r.get (-1) = Except.ok f → f.frame_no = r.len - 1) ∧
    (∀ i : Int, i < -(r.len : Int) ∨ (r.len : Int) ≤ i →
      r.get i = Except.error PimsError.indexOutOfRange) := by
  refine ⟨?_, ?_, ?_⟩
  · intro i h1 h2
    rw [ImageIOReader.get, if_pos ⟨h1, h2⟩]
    have hjlt : (if i < 0 then (i + (r.len : Int)).toNat else i.toNat) <
        r.backend.frames.length := by
      rw [← hwf]
      split <;> omega
    obtain ⟨f, hf, _⟩ := get_frame_isOk r _ hc hjlt
    exact ⟨f, hf⟩
  · intro hlen
    have hcond1 : -(r.len : Int) ≤ -1 ∧ (-1 : Int) < (r.len : Int) := by omega
    have hcond2 : -(r.len : Int) ≤ (r.len : Int) - 1 ∧
        (r.len : Int) - 1 < (r.len : Int) := by omega
    have hj1 : (if (-1 : Int) < 0 then ((-1) + (r.len : Int)).toNat
        else (-1 : Int).toNat) = r.len - 1 := by
      rw [if_pos (by omega)]
      omega
    have hj2 : (if (r.len : Int) - 1 < 0 then ((r.len : Int) - 1 + (r.len : Int)).toNat
        else ((r.len : Int) - 1).toNat) = r.len - 1 := by
      rw [if_neg (by omega)]
      omega
    constructor
    · rw [ImageIOReader.get, ImageIOReader.get, if_pos hcond1, if_pos hcond2, hj1, hj2]
    · intro f hf
      rw [ImageIOReader.get, if_pos hcond1, hj1] at hf
      exact get_frame_ok_frame_no r _ f hf
  · intro i hi
    rw [ImageIOReader.get, if_neg (by omega)]

theorem C6_index_wraparound_witness :
    (∃ f, rEx.get 0 = Except.ok f) ∧
    rEx.get (-1) = rEx.get ((rEx.len : Int) - 1) ∧
    (∀ f, rEx.get (-1) = Except.ok f → f.frame_no = rEx.len - 1) ∧
    rEx.get 2 = Except.error PimsError.indexOutOfRange ∧
    rEx.get (-2) = Except.error PimsError.indexOutOfRange :=
  ⟨(C6_index_wraparound rEx rfl rfl).1 0 (by decide) (by decide),
   ((C6_index_wraparound rEx rfl rfl).2.1 (by decide)).1,
   ((C6_index_wraparound rEx rfl rfl).2.1 (by decide)).2,
   (C6_index_wraparound rEx rfl rfl).2.2 2 (Or.inr (by decide)),
   (C6_index_wraparound rEx rfl rfl).2.2 (-2) (Or.inl (by decide))⟩

/-- C7: for every in-range non-negative index k, `get_frame k` returns a
frame carrying `frame_no = k` and the backend frame's payload and
metadata; iterating the whole sequence yields exactly `len` frames whose
`frame_no` values are `0, 1, ..., len - 1` in order. -/
theorem C7_frame_numbering (r : ImageIOReader)
    (hwf : r.len = r.backend.frames.length) (hc : r.closed = false) :
    (∀ k, k < r.len → ∃ bf f, r.backend.frames[k]? = some bf ∧
      r.get_frame k = Except.ok f ∧ f.frame_no = k ∧
      f.data = bf.data ∧ f.meta = bf.meta) ∧
    (∃ l, r.iterFrames = Except.ok l ∧ l.length = r.len ∧
      l.map Frame.frame_no = List.range r.len) := by
  constructor
  · intro k hk
    have hk' : k < r.backend.frames.length := hwf ▸ hk
    have hbf : r.backend.frames[k]? = some (r.backend.frames[k]) :=
      List.getElem?_eq_getElem hk'
    refine ⟨r.backend.frames[k],
      ⟨(r.backend.frames[k]).data, (r.backend.frames[k]).dtype, k,
        (r.backend.frames[k]).meta⟩, hbf, ?_, rfl, rfl, rfl⟩
    unfold ImageIOReader.get_frame rawGetFrame Backend.get_data
    rw [hc, if_neg (by simp), hbf]
    rfl
  · refine ⟨((List.range r.len).zip r.backend.frames).map
      (fun p => ⟨p.2.data, p.2.dtype, p.1, p.2.meta⟩), ?_, ?_, ?_⟩
    · unfold ImageIOReader.iterFrames
      rw [hc, if_neg (by simp)]
    · rw [List.length_map, List.length_zip, List.length_range, ← hwf, Nat.min_self]
    · rw [List.map_map]
      have hcomp : (Frame.frame_no ∘
          fun p : Nat × BFrame => (⟨p.2.data, p.2.dtype, p.1, p.2.meta⟩ : Frame)) =
          Prod.fst := rfl
      rw [hcomp, List.map_fst_zip]
      rw [List.length_range]
      exact hwf.le

theorem C7_frame_numbering_witness :
    (∃ bf f, rEx.backend.frames[0]? = some bf ∧
      rEx.get_frame 0 = Except.ok f ∧ f.frame_no = 0 ∧
      f.data = bf.data ∧ f.meta = bf.meta) ∧
    (∃ l, rEx.iterFrames = Except.ok l ∧ l.length = rEx.len ∧
      l.map Frame.frame_no = List.range rEx.len) :=
  ⟨(C7_frame_numbering rEx rfl rfl).1 0 (by decide),
   (C7_frame_numbering rEx rfl rfl).2⟩

/-- C8: for pure transforms A and B, indexing the sequence obtained by
registering A first and then B yields the same payload as computing
B(A(p)) on the raw payload p at that index of the root sequence; in
general the composed sequence at index i agrees with the viewer's
`update_image` fold, which applies the registered transforms earliest
first. -/
theorem C8_pipeline_composition {α : Type} (A B : α → α) (root : Nat → α) (i : Nat) :
    composedSeq [A, B] root i = B (A (root i)) ∧
    update_image [A, B] (root i) = B (A (root i)) ∧
    ∀ fs : List (α → α), composedSeq fs root i = update_image fs (root i) :=
  ⟨rfl, rfl, fun fs => composedSeq_eq_update_image fs root i⟩

/-- C9: `close` is idempotent — closing an already-closed sequence is a
no-op and raises nothing — and after a close, every `get` on an index in
`[-length, length)` and every `get_range` starting with such an index
fails with `ClosedSequence`. -/
theorem C9_close_idempotent (r : ImageIOReader) :
    r.close.close = r.close ∧
    (∀ i : Int, -(r.len : Int) ≤ i → i < (r.len : Int) →
      r.close.get i = Except.error PimsError.closedSequence) ∧
    (∀ (i : Int) (rest : List Int), -(r.len : Int) ≤ i → i < (r.len : Int) →
      r.close.get_range (i :: rest) = Except.error PimsError.closedSequence) := by
  have hget : ∀ i : Int, -(r.len : Int) ≤ i → i < (r.len : Int) →
      r.close.get i = Except.error PimsError.closedSequence := by
    intro i h1 h2
    have hcond : -(r.close.len : Int) ≤ i ∧ i < (r.close.len : Int) := ⟨h1, h2⟩
    rw [ImageIOReader.get, if_pos hcond]
    rfl
  refine ⟨rfl, hget, ?_⟩
  intro i rest h1 h2
  rw [ImageIOReader.get_range, hget i h1 h2]
  rfl

theorem C9_close_idempotent_witness :
    rEx.close.close = rEx.close ∧
    rEx.close.get 0 = Except.error PimsError.closedSequence ∧
    rEx.close.get_range [0] = Except.error PimsError.closedSequence :=
  ⟨(C9_close_idempotent rEx).1,
   (C9_close_idempotent rEx).2.1 0 (by decide) (by decide),
   (C9_close_idempotent rEx).2.2 0 [] (by decide) (by decide)⟩

/-- C10: for any integer input and any reader of positive length, the
index the viewer stores and uses is the clamp of the input into
`[0, length - 1]`, so `update_index` never issues an out-of-range read;
when the clamped index equals the currently displayed index the state is
returned unchanged with no read issued; otherwise the stored index is the
clamped one, exactly one in-range read is issued, and the displayed image
is the pipelined decode of that index. -/
theorem C10_update_index_clamps (α : Type) (st : ViewerState α) (i : Int)
    (hlen : 0 < st.reader.length) :
    0 ≤ clampIndex i st.reader.length ∧
    clampIndex i st.reader.length ≤ (st.reader.length : Int) - 1 ∧
    (∃ out, Viewer.update_index st i = Except.ok out) ∧
    (clampIndex i st.reader.length = (st.index : Int) →
      Viewer.update_index st i = Except.ok (st, [])) ∧
    (clampIndex i st.reader.length ≠ (st.index : Int) →
      ∃ st', Viewer.update_index st i =
          Except.ok (st', [(clampIndex i st.reader.length).toNat]) ∧
        st'.index = (clampIndex i st.reader.length).toNat ∧
        st'.index < st.reader.length ∧
        st.reader[st'.index]? = some st'.original_image ∧
        st'.image = update_image st.pipelines st'.original_image) := by
  have hb1 : 0 ≤ clampIndex i st.reader.length := by
    unfold clampIndex
    omega
  have hb2 : clampIndex i st.reader.length ≤ (st.reader.length : Int) - 1 := by
    unfold clampIndex
    omega
  have hlt : (clampIndex i st.reader.length).toNat < st.reader.length := by omega
  have hsome : st.reader[(clampIndex i st.reader.length).toNat]? =
      some (st.reader[(clampIndex i st.reader.length).toNat]) :=
    List.getElem?_eq_getElem hlt
  by_cases heq : clampIndex i st.reader.length = (st.index : Int)
  · have hupd : Viewer.update_index st i = Except.ok (st, []) := by
      rw [Viewer.update_index, if_pos heq]
    exact ⟨hb1, hb2, ⟨(st, []), hupd⟩, fun _ => hupd, fun hne => absurd heq hne⟩
  · have hupd : Viewer.update_index st i = Except.ok
        ({ st with
            index := (clampIndex i st.reader.length).toNat
            sliderVal := (clampIndex i st.reader.length).toNat
            original_image := st.reader[(clampIndex i st.reader.length).toNat]
            image := update_image st.pipelines
              (st.reader[(clampIndex i st.reader.length).toNat]) },
          [(clampIndex i st.reader.length).toNat]) := by
      rw [Viewer.update_index, if_neg heq, hsome]
    refine ⟨hb1, hb2, ⟨_, hupd⟩, fun h => absurd h heq, fun _ => ⟨_, hupd, rfl, hlt, ?_, rfl⟩⟩
    exact hsome

/-- A concrete viewer state: two decodable images, no pipelines. -/
def vEx : ViewerState Nat :=
  ⟨0, 0, 10, 10, [10, 20], []⟩

theorem C10_update_index_clamps_witness :
    (Viewer.update_index vEx 0 = Except.ok (vEx, [])) ∧
    (∃ st', Viewer.update_index vEx 5 =
        Except.ok (st', [(clampIndex 5 vEx.reader.length).toNat]) ∧
      st'.index = (clampIndex 5 vEx.reader.length).toNat ∧
      st'.index < vEx.reader.length ∧
      vEx.reader[st'.index]? = some st'.original_image ∧
      st'.image = update_image vEx.pipelines st'.original_image) :=
  ⟨(C10_update_index_clamps Nat vEx 0 (by decide)).2.2.2.1 (by decide),
   (C10_update_index_clamps Nat vEx 5 (by decide)).2.2.2.2 (by decide)⟩

end PimsSpec
